import Mathlib

/-!
# Verification of the sprite-sheet export pipeline

A shallow embedding, in Lean 4, of the deterministic frame-capture and
multi-angle export pipeline of the `sprite_sheet` repository:

* `src/hooks/useExport.tsx` — `renderFrame`, `exportSpriteSheet`,
  `exportSequence` (frame planning, per-frame persistence, sheet assembly);
* `src/hooks/useSafeModelCalibration.tsx` — `analyzeModel`,
  `applyCalibration`, and the `useAnimation` frame mapper;
* `src/hooks/useFrameEditor.tsx` — frame-ingestion ordering, `toggleFrame`,
  `getActiveFrames`, `exportAsSpriteSheet`;
* `src/components/SafeMultiExport.tsx` — `handleExport`, the multi-angle
  batch loop.

JavaScript numbers are modelled as `ℚ` (exact rational arithmetic) where the
code manipulates continuous quantities, and as `ℕ`/`ℤ` where the code
manipulates integer counts and indices.  `Math.round` is
`fun q => ⌊q + 1/2⌋` (round half toward positive infinity), `Math.floor` is
`Int.floor`, and the sampling loops are translated index-for-index.  Strings
are Lean `String`s; fallible external bridges (the Electron file system, the
React-Three-Fiber scene lookup, the 2D canvas context) are abstracted as
boolean-valued oracles passed in explicitly.
-/

namespace SpriteSheet

/-- JavaScript `Math.round`: round half up, `⌊q + 1/2⌋`. -/
def jsRound (q : ℚ) : ℤ := ⌊q + 1/2⌋

/-! ## Frame planning (`useExport.tsx`, `exportSequence`, lines 675–693)

```js
const framesToRender = [];
if (renderSteps === 1 || renderSteps >= totalFrames) {
  for (let i = 0; i < totalFrames; i++) framesToRender.push(i);
} else {
  const step = Math.max(1, Math.floor(totalFrames / renderSteps));
  for (let i = 0; i < totalFrames; i += step) framesToRender.push(i);
}
if (framesToRender[framesToRender.length - 1] !== totalFrames - 1) {
  framesToRender.push(totalFrames - 1);
}
```

For `renderSteps = 0` JavaScript computes `totalFrames / 0 = Infinity`,
`Math.floor(Infinity) = Infinity`, `Math.max(1, Infinity) = Infinity`, so the
sampling loop body runs exactly once (at `i = 0`) when `totalFrames > 0`.
For `renderSteps < 0` the floored quotient is nonpositive, so the step is 1.
`Math.floor` on an exact quotient of an integer by a nonzero integer is
`Int.fdiv` (floor division). -/

/-- The sampling loop `for (let i = 0; i < totalFrames; i += step)` for an
integer step `≥ 1`: the multiples of `step` below `totalFrames`, in loop
order.  The loop body runs `⌈totalFrames / step⌉` times. -/
def sampleIndices (totalFrames step : ℕ) : List ℤ :=
  (List.range ((totalFrames + step - 1) / step)).map (fun k => ((k * step : ℕ) : ℤ))

/-- The planned frame-index sequence of `exportSequence`
(`useExport.tsx`, lines 675–693). -/
def planFrames (totalFrames : ℕ) (renderSteps : ℤ) : List ℤ :=
  let base : List ℤ :=
    if renderSteps = 1 ∨ (totalFrames : ℤ) ≤ renderSteps then
      List.map (fun i : ℕ => (i : ℤ)) (List.range totalFrames)
    else if renderSteps = 0 then
      -- JS: step = Infinity; the loop body runs once (at i = 0) when totalFrames > 0
      if 0 < totalFrames then [0] else []
    else
      let step : ℤ := max 1 (Int.fdiv (totalFrames : ℤ) renderSteps)
      sampleIndices totalFrames step.toNat
  if base.getLast? = some ((totalFrames : ℤ) - 1) then base
  else base ++ [(totalFrames : ℤ) - 1]

/-! ## Render capture (`useExport.tsx`, `renderFrame`, lines 221–410) -/

/-- A three.js `Vector3` with exact rational coordinates. -/
structure Vec3 where
  x : ℚ
  y : ℚ
  z : ℚ
deriving DecidableEq, Repr

/-- A three.js `Euler` rotation. -/
structure Euler where
  x : ℚ
  y : ℚ
  z : ℚ
deriving DecidableEq, Repr

/-- Camera-type-specific projection parameters: `THREE.PerspectiveCamera`
(`fov`/`aspect`/`near`/`far`) or `THREE.OrthographicCamera`
(`left`/`right`/`top`/`bottom`/`near`/`far`). -/
inductive CameraProj where
  | perspective (fov aspect near far : ℚ)
  | orthographic (left right top bottom near far : ℚ)
deriving DecidableEq, Repr

/-- The mutable camera state touched by `renderFrame`. -/
structure Camera where
  position : Vec3
  rotation : Euler
  zoom : ℚ
  proj : CameraProj
deriving DecidableEq, Repr

/-- The mutable renderer state touched by `renderFrame`: render-surface size
(`getSize`/`setSize`), pixel density (`getPixelRatio`/`setPixelRatio`),
clear color and clear alpha. -/
structure Renderer where
  width : ℕ
  height : ℕ
  pixelDensity : ℚ
  clearColor : ℕ
  clearAlpha : ℚ
deriving DecidableEq, Repr

/-- The mutable scene state touched by `renderFrame`: only `scene.background`
(`null` modelled as `none`). -/
structure Scene3D where
  background : Option ℕ
deriving DecidableEq, Repr

/-- The optional `EffectComposer` attached to the canvas; `renderFrame`
resizes it (and its passes) for the capture and back afterwards. -/
structure Composer where
  width : ℕ
  height : ℕ
deriving DecidableEq, Repr

/-- The borrowed renderer/camera/scene bundle. -/
structure CaptureState where
  renderer : Renderer
  camera : Camera
  scene : Scene3D
  composer : Option Composer
deriving DecidableEq, Repr

/-- The source rectangle selected for the canvas copy
(`useExport.tsx`, lines 327–343). -/
structure SourceRect where
  x : ℤ
  y : ℤ
  w : ℤ
  h : ℤ
deriving DecidableEq, Repr

/-- The source-rectangle computation of `renderFrame` (lines 323–343):
center-crop along the oversized axis when the renderer-canvas aspect differs
from the target aspect by more than `0.01`. -/
def computeSourceRect (srcW srcH tgtW tgtH : ℕ) : SourceRect :=
  let rendererAspect : ℚ := (srcW : ℚ) / (srcH : ℚ)
  let targetAspect : ℚ := (tgtW : ℚ) / (tgtH : ℚ)
  if 1/100 < |rendererAspect - targetAspect| then
    if targetAspect < rendererAspect then
      -- renderer is wider than target: crop width
      let sourceWidth : ℤ := jsRound ((srcH : ℚ) * targetAspect)
      { x := jsRound (((srcW : ℚ) - (sourceWidth : ℚ)) / 2), y := 0,
        w := sourceWidth, h := srcH }
    else
      -- renderer is taller than target: crop height
      let sourceHeight : ℤ := jsRound ((srcW : ℚ) / targetAspect)
      { x := 0, y := jsRound (((srcH : ℚ) - (sourceHeight : ℚ)) / 2),
        w := srcW, h := sourceHeight }
  else
    { x := 0, y := 0, w := srcW, h := srcH }

/-- The raster produced by one capture: the export canvas is created with
exactly the requested dimensions and receives the selected source
rectangle. -/
structure Raster where
  width : ℕ
  height : ℕ
  src : SourceRect
deriving DecidableEq, Repr

/-- The capture-time camera mutation (lines 267–284): perspective cameras get
`aspect = width/height`; orthographic cameras expand `left`/`right`
symmetrically to match the new aspect while preserving the vertical
extent. -/
def updateCameraForExport (proj : CameraProj) (aspect : ℚ) : CameraProj :=
  match proj with
  | .perspective fov _ near far => .perspective fov aspect near far
  | .orthographic left right top bottom near far =>
      let currentHeight := top - bottom
      let currentWidth := right - left
      let newWidth := currentHeight * aspect
      let widthDiff := newWidth - currentWidth
      .orthographic (left - widthDiff / 2) (right + widthDiff / 2) top bottom near far

/-- The `finally`-block restore of the camera projection (lines 380–394):
the saved type-specific fields are written back, branching on the camera
type (which the mutation never changes). -/
def restoreCameraProj (mutated original : CameraProj) : CameraProj :=
  match mutated, original with
  | .perspective _ _ _ _, .perspective fov aspect near far =>
      .perspective fov aspect near far
  | .orthographic _ _ _ _ _ _, .orthographic left right top bottom near far =>
      .orthographic left right top bottom near far
  | p, _ => p

/-- `renderFrame` (lines 221–410): snapshot → mutate → render → capture →
restore.  The `ctx2dOk` flag models whether `exportCanvas.getContext('2d')`
succeeds; when it fails the function throws from inside the `try` block, the
`finally` block still restores every snapshotted field, and the error
propagates (first component `.error`).  The render itself (composer or
direct) changes no modelled state. -/
def renderFrame (width height : ℕ) (ctx2dOk : Bool) (st : CaptureState) :
    Except String Raster × CaptureState :=
  -- snapshot (lines 222-256)
  let originalSize := (st.renderer.width, st.renderer.height)
  let originalClearColor := st.renderer.clearColor
  let originalClearAlpha := st.renderer.clearAlpha
  let originalBackgroundColor := st.scene.background
  let originalPixelDensity := st.renderer.pixelDensity
  let originalCamera := st.camera
  -- try: mutate renderer, scene, camera, composer (lines 258-306)
  let renderer1 : Renderer :=
    { width := width, height := height, pixelDensity := 1,
      clearColor := 0, clearAlpha := 0 }
  let scene1 : Scene3D := { background := none }
  let aspect : ℚ := (width : ℚ) / (height : ℚ)
  let camera1 : Camera := { st.camera with proj := updateCameraForExport st.camera.proj aspect }
  let composer1 : Option Composer := st.composer.map (fun _ => ⟨width, height⟩)
  -- capture into the export canvas (lines 308-366)
  let result : Except String Raster :=
    if ctx2dOk then
      .ok { width := width, height := height,
            src := computeSourceRect renderer1.width renderer1.height width height }
    else .error "Could not get 2D context for export canvas"
  -- finally: restore (lines 367-409)
  let renderer2 : Renderer := { renderer1 with width := originalSize.1, height := originalSize.2 }
  let renderer3 : Renderer :=
    { renderer2 with clearColor := originalClearColor, clearAlpha := originalClearAlpha }
  let renderer4 : Renderer := { renderer3 with pixelDensity := originalPixelDensity }
  let scene2 : Scene3D := { scene1 with background := originalBackgroundColor }
  let camera2 : Camera :=
    { camera1 with position := originalCamera.position, rotation := originalCamera.rotation,
                   zoom := originalCamera.zoom }
  let camera3 : Camera := { camera2 with proj := restoreCameraProj camera1.proj originalCamera.proj }
  let composer2 : Option Composer := composer1.map (fun _ => ⟨originalSize.1, originalSize.2⟩)
  (result, { renderer := renderer4, camera := camera3, scene := scene2, composer := composer2 })

/-! ## Sprite-sheet grid layout (`useExport.tsx`, `exportSpriteSheet`,
lines 493–548, and `useFrameEditor.tsx`, `exportAsSpriteSheet`,
lines 270–315) -/

/-- `Math.ceil(Math.sqrt(n))`: the least `c` with `n ≤ c * c`
(kernel-computable linear search; `n` itself always satisfies the bound). -/
def leastSqrtFrom (n : ℕ) : ℕ → ℕ → ℕ
  | c, 0 => c
  | c, fuel + 1 => if n ≤ c * c then c else leastSqrtFrom n (c + 1) fuel

/-- `Math.ceil(Math.sqrt(n))`. -/
def ceilSqrt (n : ℕ) : ℕ := leastSqrtFrom n 0 n

/-- `Math.ceil(n / c)` for natural `n`, `c`. -/
def ceilDiv (n c : ℕ) : ℕ := (n + c - 1) / c

/-- A computed sprite-sheet layout: grid shape, canvas dimensions, and the
top-left pixel position of each frame cell in drawing order. -/
structure SheetLayout where
  columns : ℕ
  rows : ℕ
  sheetW : ℕ
  sheetH : ℕ
  positions : List (ℕ × ℕ)
deriving DecidableEq, Repr

/-- The export orchestrator's sheet (`exportSpriteSheet`, lines 493–548):
`columns = ceil(sqrt(frameCount))`, `rows = ceil(frameCount / columns)`,
canvas `= (width*columns, height*rows)`, frame `i` drawn at
`((i % columns) * width, (i / columns) * height)`. -/
def exportSpriteSheetLayout (frameCount width height : ℕ) : SheetLayout :=
  let columns := ceilSqrt frameCount
  let rows := ceilDiv frameCount columns
  { columns := columns, rows := rows,
    sheetW := width * columns, sheetH := height * rows,
    positions := (List.range frameCount).map
      (fun i => ((i % columns) * width, (i / columns) * height)) }

/-- A frame of the frame editor (`useFrameEditor.tsx`, interface `Frame`). -/
structure Frame where
  id : String
  filename : String
  data : String
  enabled : Bool
  width : ℕ
  height : ℕ
deriving DecidableEq, Repr

/-- The frame editor's sheet (`exportAsSpriteSheet`, lines 270–315): errors
out on an empty active set; otherwise the canvas is
`(firstFrame.width * n, firstFrame.height)` and frame `i` is drawn at
`(i * firstFrame.width, 0)` — a single-row strip. -/
def exportAsSpriteSheetLayout (activeFrames : List Frame) : Option SheetLayout :=
  match activeFrames with
  | [] => none
  | f :: rest =>
      let n := (f :: rest).length
      some { columns := n, rows := 1,
             sheetW := f.width * n, sheetH := f.height,
             positions := (List.range n).map (fun i => (i * f.width, 0)) }

/-! ## Frame editor state (`useFrameEditor.tsx`) -/

/-- `toggleFrame` (lines 205–215): flips `enabled` of the frame at `index`,
leaving every other field and every other frame untouched.  (For an
out-of-range index the JavaScript would throw reading `enabled` of
`undefined`; the claims below only concern valid indices.) -/
def toggleFrame (frames : List Frame) (index : ℕ) : List Frame :=
  match frames[index]? with
  | some f => frames.set index { f with enabled := !f.enabled }
  | none => frames

/-- `getActiveFrames` (lines 217–220): the enabled-only filter. -/
def getActiveFrames (frames : List Frame) : List Frame :=
  frames.filter (fun f => f.enabled)

/-! ## Frame ingestion ordering (`useFrameEditor.tsx`,
`importFramesFromFolder`, lines 74–84)

```js
const imageFiles = files
  .filter(f => f.toLowerCase().endsWith('.png'))
  .sort((a, b) => {
    const aMatch = a.match(/\d+/);
    const bMatch = b.match(/\d+/);
    const aNum = aMatch ? parseInt(aMatch[0]) : 0;
    const bNum = bMatch ? parseInt(bMatch[0]) : 0;
    return aNum - bNum;
  });
```

`Array.prototype.sort` is stable (ECMAScript 2019), and the comparator
orders ascending by the first embedded integer; any stable
sort-by-first-integer is therefore a faithful model.  We use a stable
insertion sort so that concrete runs reduce in the kernel. -/

/-- `String.prototype.toLowerCase` (ASCII suffices for the `.png` test). -/
def toLowerStr (s : String) : String := String.mk (s.data.map Char.toLower)

/-- `f.toLowerCase().endsWith('.png')`. -/
def isPngFile (s : String) : Bool := ['.', 'p', 'n', 'g'].isSuffixOf (toLowerStr s).data

/-- Numeric value of a digit run (`parseInt` on a `\d+` match). -/
def digitsVal (ds : List Char) : ℕ :=
  ds.foldl (fun n c => n * 10 + (c.toNat - 48)) 0

/-- The first maximal digit run of a character list (`s.match(/\d+/)`). -/
def firstDigitRun : List Char → List Char
  | [] => []
  | c :: cs => if c.isDigit then c :: cs.takeWhile Char.isDigit else firstDigitRun cs

/-- `aMatch ? parseInt(aMatch[0]) : 0`: the first embedded integer of a
filename, `0` when the name has no digits. -/
def firstNumber (s : String) : ℕ := digitsVal (firstDigitRun s.data)

/-- Stable insertion: place `a` before the first element whose key is not
smaller, so that elements with equal keys keep their original relative
order (`a` precedes later-listed peers). -/
def insertByNumber (a : String) : List String → List String
  | [] => [a]
  | b :: bs =>
      if firstNumber a ≤ firstNumber b then a :: b :: bs
      else b :: insertByNumber a bs

/-- Stable sort by `firstNumber` (models the stable `Array.prototype.sort`
with the numeric comparator). -/
def sortByFirstNumber : List String → List String
  | [] => []
  | a :: rest => insertByNumber a (sortByFirstNumber rest)

/-- The ingestion ordering of `importFramesFromFolder` (lines 74–84): filter
to `.png` files, then stable-sort by first embedded integer. -/
def importFramesOrder (files : List String) : List String :=
  sortByFirstNumber (files.filter isPngFile)

/-! ## Persistence and the export sequence (`useExport.tsx`,
`exportSequence`, lines 592–775) -/

/-- `frameIndex.toString().padStart(4, '0')`. -/
def pad4 (n : ℤ) : String :=
  let s := toString n
  if s.length < 4 then String.mk (List.replicate (4 - s.length) '0') ++ s else s

/-- The Windows-hostile-character sanitization
`name.replace(/[<>:"|?*\/\\]/g, '_')`. -/
def sanitizeName (s : String) : String :=
  String.mk (s.data.map
    (fun c => if c ∈ ['<', '>', ':', '"', '|', '?', '*', '/', '\\'] then '_' else c))

/-- The external-world oracles an export run depends on: whether a file
system API is exposed, whether the R3F scene bundle resolves, whether the
2D canvas context is obtainable, and the per-path results of
`createDirectory` and `saveFile`. -/
structure Bridge where
  fsAvailable : Bool
  sceneAvailable : Bool
  ctx2dOk : Bool
  createDirectoryOk : String → Bool
  saveFileOk : String → Bool

/-- Outcome of an awaited JavaScript promise. -/
inductive PromiseOut (α : Type) where
  | resolved (value : α)
  | rejected (msg : String)
deriving DecidableEq, Repr

/-- The observable outcome of one `exportSequence` run: whether it completed,
the (toast) error message if any, and the files successfully written (in
order; files written before a failure remain). -/
structure SeqOutcome where
  ok : Bool
  errorMsg : Option String
  written : List String
deriving DecidableEq, Repr

/-- The per-frame loop of `exportSequence` (lines 706–753): for each planned
index, render (throwing if the 2D context is unavailable), then save
`frame_<idx padded to 4>.png`, aborting on the first failed write.  Returns
the first error (if any) and the files written before it. -/
def saveFrames (b : Bridge) (folder : String) : List ℤ → Option String × List String
  | [] => (none, [])
  | frameIndex :: rest =>
      if b.ctx2dOk = false then
        (some "Could not get 2D context for export canvas", [])
      else
        let filename := folder ++ "/frame_" ++ pad4 frameIndex ++ ".png"
        if b.saveFileOk filename then
          let result := saveFrames b folder rest
          (result.1, filename :: result.2)
        else (some ("Failed to save file: " ++ filename), [])

/-- `exportSequence` (lines 592–775).  Every failure inside the `try` block
is caught by the trailing `catch`, surfaced as a toast message, and the
`async` function returns normally — the promise always resolves; the
precondition failures (missing folder/animation/file system/scene) return
early, also resolving.  On success the sprite sheet
`<folder>/<name>_spritesheet_<cols>x<rows>.png` is saved last
(`exportSpriteSheet`, lines 484–589). -/
def exportSequence (b : Bridge) (outputFolder currentAnimation : Option String)
    (renderSteps : ℤ) (totalFrames : ℕ) : PromiseOut SeqOutcome :=
  match outputFolder with
  | none => .resolved ⟨false, some "Please select an output folder first", []⟩
  | some folder =>
  match currentAnimation with
  | none => .resolved ⟨false, some "No animation selected", []⟩
  | some anim =>
  if b.fsAvailable = false then
    .resolved ⟨false, some "File system access is not available", []⟩
  else if b.sceneAvailable = false then
    .resolved ⟨false, some "Could not access the 3D scene", []⟩
  else
    let animationFolder := folder ++ "/" ++ sanitizeName anim
    if b.createDirectoryOk animationFolder = false then
      .resolved ⟨false,
        some ("Failed to export sequence: Failed to create directory: " ++ animationFolder), []⟩
    else
      let frames := planFrames totalFrames renderSteps
      let saved := saveFrames b animationFolder frames
      match saved.1 with
      | some msg => .resolved ⟨false, some ("Failed to export sequence: " ++ msg), saved.2⟩
      | none =>
          let cols := ceilSqrt frames.length
          let rows := ceilDiv frames.length cols
          let sheetFile := folder ++ "/" ++ sanitizeName anim ++ "_spritesheet_" ++
            toString cols ++ "x" ++ toString rows ++ ".png"
          if b.saveFileOk sheetFile then .resolved ⟨true, none, saved.2 ++ [sheetFile]⟩
          else
            .resolved ⟨false,
              some ("Failed to export sequence: Failed to save sprite sheet: " ++ sheetFile),
              saved.2⟩

/-! ## Multi-angle batch loop (`SafeMultiExport.tsx`, `handleExport`,
lines 81–125)

The loop `for (let i = 0; i < selectedAngles.length; i++) { ...;
await onExportSequence(...); ... }` sits in a `try` whose `catch` would stop
the iteration if an awaited promise rejected. -/

/-- The batch loop: one entry per processed angle, recording that angle's
awaited `exportSequence` outcome; a rejected promise aborts the remaining
angles (recorded as a final failed entry). -/
def handleExport (b : Bridge) (outputFolder currentAnimation : Option String)
    (renderSteps : ℤ) (totalFrames : ℕ) : List String → List (String × SeqOutcome)
  | [] => []
  | angle :: rest =>
      match exportSequence b outputFolder currentAnimation renderSteps totalFrames with
      | .resolved out =>
          (angle, out) :: handleExport b outputFolder currentAnimation renderSteps totalFrames rest
      | .rejected msg => [(angle, ⟨false, some msg, []⟩)]

/-- A bridge on which every `saveFile` call fails (directory creation, file
system, scene and 2D context all fine). -/
def exportBridgeFail : Bridge :=
  { fsAvailable := true, sceneAvailable := true, ctx2dOk := true,
    createDirectoryOk := fun _ => true, saveFileOk := fun _ => false }

/-! ## Calibration (`useSafeModelCalibration.tsx`) -/

/-- `SafeModelCalibration` (lines 5–13). -/
structure SafeModelCalibration where
  originalScale : ℚ
  normalizedScale : ℚ
  groundOffset : ℚ
  frontFaceRotation : ℚ
  isFrontFaceSet : Bool
  originalSize : Vec3
  targetHeight : ℚ
deriving DecidableEq, Repr

/-- The live model container (`scene.getObjectByName("importedModel")`):
the fields `applyCalibration` mutates. -/
structure ModelContainer where
  scale : Vec3
  positionY : ℚ
  rotationY : ℚ
deriving DecidableEq, Repr

/-- The scene as seen by the calibration hook: the container lookup may
fail. -/
structure CalScene where
  importedModel : Option ModelContainer
deriving DecidableEq, Repr

/-- `applyCalibration` (lines 66–97): returns `(success, new React
calibration state, new scene)`.  If the scene or the container cannot be
located it logs a warning and returns `false` — `setCalibration` is *not*
reached, so the in-memory state is unchanged.  On success the container is
mutated and the state becomes the applied calibration. -/
def applyCalibration (scene : Option CalScene) (state : Option SafeModelCalibration)
    (newCalibration : SafeModelCalibration) :
    Bool × Option SafeModelCalibration × Option CalScene :=
  match scene with
  | none => (false, state, none)
  | some sc =>
      match sc.importedModel with
      | none => (false, state, some sc)
      | some container =>
          let container1 : ModelContainer :=
            { scale := ⟨newCalibration.normalizedScale, newCalibration.normalizedScale,
                        newCalibration.normalizedScale⟩,
              positionY := newCalibration.groundOffset,
              rotationY := if newCalibration.isFrontFaceSet then
                  newCalibration.frontFaceRotation
                else container.rotationY }
          (true, some newCalibration, some { importedModel := some container1 })

/-- A world-space bounding box (`THREE.Box3`). -/
structure Box3 where
  min : Vec3
  max : Vec3
deriving DecidableEq, Repr

/-- A loaded glTF scene root together with its computed bounding box
(`new THREE.Box3().setFromObject(model.scene)`). -/
structure GLTFScene where
  boundingBox : Box3
deriving DecidableEq, Repr

/-- A loaded model; `scene` may be absent (`model?.scene` guard). -/
structure GLTFModel where
  scene : Option GLTFScene
deriving DecidableEq, Repr

/-- `analyzeModel` (lines 20–63): `null` without a scene root; otherwise
`targetHeight = 1.5`, `normalizedScale = targetHeight / height` when the
bounding height is positive and `1` otherwise, then clamped first to at most
`20` and then to at least `0.5`; `groundOffset = -box.min.y *
normalizedScale`. -/
def analyzeModel (model : Option GLTFModel) : Option SafeModelCalibration :=
  match model with
  | none => none
  | some m =>
      match m.scene with
      | none => none
      | some sc =>
          let box := sc.boundingBox
          let size : Vec3 := ⟨box.max.x - box.min.x, box.max.y - box.min.y, box.max.z - box.min.z⟩
          let originalHeight := size.y
          let targetHeight : ℚ := 3/2
          let scale0 : ℚ := if 0 < originalHeight then targetHeight / originalHeight else 1
          let scale1 : ℚ := min scale0 20
          let normalizedScale : ℚ := max scale1 (1/2)
          some { originalScale := 1, normalizedScale := normalizedScale,
                 groundOffset := -box.min.y * normalizedScale,
                 frontFaceRotation := 0, isFrontFaceSet := false,
                 originalSize := size, targetHeight := targetHeight }

/-! ## Animation frame mapper (`useSafeModelCalibration.tsx`, `useAnimation`,
lines 246–376) -/

/-- The `useAnimation` frame state. -/
structure AnimState where
  currentFrame : ℤ
  totalFrames : ℤ
deriving DecidableEq, Repr

/-- `Math.floor(selectedAnim.duration * fps)` with `fps = 30`
(lines 286–287). -/
def totalFramesFor (duration : ℚ) : ℤ := ⌊duration * 30⌋

/-- The effect run when the active animation changes (lines 276–292):
`totalFrames` is recomputed from the duration and `currentFrame` resets
to 0. -/
def selectAnimation (duration : ℚ) : AnimState :=
  ⟨0, totalFramesFor duration⟩

/-- `previousFrame` (lines 343–348): `prev <= 0` wraps to
`totalFrames - 1`. -/
def previousFrame (st : AnimState) : AnimState :=
  { st with currentFrame :=
      if st.currentFrame ≤ 0 then st.totalFrames - 1 else st.currentFrame - 1 }

/-- A concrete capture state used to instantiate capture theorems. -/
def sampleCaptureState : CaptureState :=
  { renderer := { width := 800, height := 600, pixelDensity := 2, clearColor := 16, clearAlpha := 1 },
    camera := { position := ⟨1, 2, 3⟩, rotation := ⟨0, 1, 0⟩, zoom := 1,
                proj := .perspective 50 2 1 1000 },
    scene := { background := some 7 },
    composer := some ⟨800, 600⟩ }

/-- A concrete calibration used to instantiate calibration theorems. -/
def demoCalibration : SafeModelCalibration :=
  { originalScale := 1, normalizedScale := 2, groundOffset := 0,
    frontFaceRotation := 0, isFrontFaceSet := false,
    originalSize := ⟨1, 2, 1⟩, targetHeight := 2 }

/-- A concrete frame used to instantiate frame-editor theorems. -/
def demoFrame : Frame :=
  { id := "frame-0", filename := "f.png", data := "d", enabled := true, width := 8, height := 8 }

/-! # Theorems -/

/-! ## Support lemmas for frame planning -/

lemma multiples_eq (s : ℕ) (hs : 1 ≤ s) (n : ℕ) :
    (List.range ((n + s - 1) / s)).map (fun k => k * s) =
      (List.range n).filter (fun i => i % s == 0) := by
  induction n with
  | zero =>
      have h0 : (0 + s - 1) / s = 0 := Nat.div_eq_of_lt (by omega)
      rw [h0]
      rfl
  | succ n ih =>
      have hstep : n + 1 + s - 1 = (n + s - 1) + 1 := by omega
      have hclean : n + s - 1 + 1 = n + s := by omega
      have hcnt : (n + 1 + s - 1) / s = (n + s - 1) / s + if s ∣ n + s then 1 else 0 := by
        rw [hstep, Nat.succ_div, hclean]
      rw [List.range_succ, List.filter_append, hcnt]
      by_cases hdvd : s ∣ n
      · have hd2 : s ∣ n + s := Nat.dvd_add_self_right.mpr hdvd
        obtain ⟨q, hq⟩ := hdvd
        have hcq : (n + s - 1) / s = q := by
          have h1 : n + s - 1 = s * q + (s - 1) := by omega
          rw [h1, Nat.mul_add_div (by omega), Nat.div_eq_of_lt (by omega), Nat.add_zero]
        rw [hcq] at ih
        rw [if_pos hd2, hcq, List.range_succ, List.map_append, ih]
        have hmod : (n % s == 0) = true := by
          subst hq
          simp [Nat.mul_mod_right]
        rw [List.filter_cons]
        simp only [hmod, if_pos, List.filter_nil]
        congr 1
        simp [hq, Nat.mul_comm]
      · have hd2 : ¬ s ∣ n + s := fun h => hdvd (Nat.dvd_add_self_right.mp h)
        rw [if_neg hd2, Nat.add_zero, ih]
        have hne : n % s ≠ 0 := fun h => hdvd (Nat.dvd_of_mod_eq_zero h)
        have hmod : (n % s == 0) = false := by simpa using hne
        rw [List.filter_cons]
        simp [hmod]

lemma sampleIndices_eq_filter (s : ℕ) (_hs : 1 ≤ s) (n : ℕ) :
    sampleIndices n s =
      List.map (fun i : ℕ => (i : ℤ)) ((List.range n).filter (fun i => i % s == 0)) := by
  have h := congrArg (List.map (fun i : ℕ => (i : ℤ))) (multiples_eq s _hs n)
  rw [List.map_map] at h
  exact h

lemma filter_multiples_getLast (s : ℕ) (hs : 1 ≤ s) (n : ℕ) (hn : 1 ≤ n) :
    ((List.range n).filter (fun i => i % s == 0)).getLast? =
      some (s * ((n - 1) / s)) := by
  induction n with
  | zero => omega
  | succ n ih =>
      rw [List.range_succ, List.filter_append, List.filter_cons]
      by_cases hdvd : s ∣ n
      · have hmod : (n % s == 0) = true := by
          obtain ⟨q, rfl⟩ := hdvd
          simp [Nat.mul_mod_right]
        simp only [hmod, if_pos, List.filter_nil]
        rw [List.getLast?_concat]
        have h1 : n + 1 - 1 = n := by omega
        rw [h1, Nat.mul_div_cancel' hdvd]
      · rcases Nat.eq_zero_or_pos n with rfl | hpos
        · exact absurd (dvd_zero s) hdvd
        · have hne : n % s ≠ 0 := fun h => hdvd (Nat.dvd_of_mod_eq_zero h)
          have hmod : (n % s == 0) = false := by simpa using hne
          simp only [hmod, List.filter_nil, List.append_nil, if_neg, Bool.false_eq_true,
            not_false_iff]
          rw [ih hpos]
          have h1 : n - 1 + 1 = n := by omega
          have h2 := Nat.succ_div (n - 1) s
          rw [h1, if_neg hdvd, Nat.add_zero] at h2
          have h3 : n + 1 - 1 = n := by omega
          rw [h3, h2]

lemma range_map_getLast (n : ℕ) (hn : 1 ≤ n) :
    (List.map (fun i : ℕ => (i : ℤ)) (List.range n)).getLast? = some ((n : ℤ) - 1) := by
  obtain ⟨m, rfl⟩ : ∃ m, n = m + 1 := ⟨n - 1, by omega⟩
  rw [List.range_succ, List.map_append,
    show List.map (fun i : ℕ => (i : ℤ)) [m] = [(m : ℤ)] from rfl, List.getLast?_concat]
  congr 1
  push_cast
  ring

/-! ## C3 — the planned frame sequence -/

/-- C3 — (corrected).  The planned frame sequence: for `totalFrames ≥ 1`,
all indices are planned when `renderSteps = 1`, `renderSteps < 0`, or
`renderSteps ≥ totalFrames`; for `renderSteps = 0` (where JavaScript's
division by zero makes the step infinite) the plan is `[0]` with the last
frame force-appended; for `2 ≤ renderSteps < totalFrames` the plan is the
multiples of `step = totalFrames / renderSteps` below `totalFrames` with the
last frame force-appended when it is not itself a multiple.  In particular
`planFrames 100 10 = [0,10,…,90,99]` and `planFrames 5 1 = [0,…,4]`. -/
theorem planFrames_characterization :
    (∀ (totalFrames : ℕ) (renderSteps : ℤ), 1 ≤ totalFrames →
      ((renderSteps = 1 ∨ renderSteps < 0 ∨ (totalFrames : ℤ) ≤ renderSteps) →
        planFrames totalFrames renderSteps =
          List.map (fun i : ℕ => (i : ℤ)) (List.range totalFrames)) ∧
      (renderSteps = 0 →
        planFrames totalFrames renderSteps =
          if totalFrames = 1 then [0] else [0, (totalFrames : ℤ) - 1]) ∧
      (2 ≤ renderSteps → renderSteps < (totalFrames : ℤ) →
        planFrames totalFrames renderSteps =
          List.map (fun i : ℕ => (i : ℤ))
              ((List.range totalFrames).filter
                (fun i => i % (totalFrames / renderSteps.toNat) == 0)) ++
            (if (totalFrames - 1) % (totalFrames / renderSteps.toNat) = 0 then []
             else [(totalFrames : ℤ) - 1]))) ∧
    planFrames 100 10 = [0, 10, 20, 30, 40, 50, 60, 70, 80, 90, 99] ∧
    planFrames 5 1 = [0, 1, 2, 3, 4] := by
  refine ⟨?_, by decide, by decide⟩
  intro tF rS htF
  refine ⟨?_, ?_, ?_⟩
  · rintro (h1 | hneg | hge)
    · simp only [planFrames]
      rw [if_pos (Or.inl h1), if_pos (range_map_getLast tF htF)]
    · have hc : ¬((rS = 1) ∨ (tF : ℤ) ≤ rS) := by omega
      have hfd : (tF : ℤ).fdiv rS ≤ 1 :=
        le_trans (Int.fdiv_nonpos (by positivity) (by omega)) (by norm_num)
      simp only [planFrames]
      rw [if_neg hc, if_neg (by omega : ¬ rS = 0)]
      have hmax : max 1 ((tF : ℤ).fdiv rS) = 1 := max_eq_left hfd
      rw [hmax]
      have hone : sampleIndices tF (1 : ℤ).toNat =
          List.map (fun i : ℕ => (i : ℤ)) (List.range tF) := by
        rw [show (1 : ℤ).toNat = 1 from rfl, sampleIndices_eq_filter 1 le_rfl]
        congr 1
        rw [List.filter_eq_self]
        intro a ha
        simp [Nat.mod_one]
      rw [hone, if_pos (range_map_getLast tF htF)]
    · have hc : (rS = 1) ∨ (tF : ℤ) ≤ rS := Or.inr hge
      simp only [planFrames]
      rw [if_pos hc, if_pos (range_map_getLast tF htF)]
  · intro h0
    have hc : ¬((rS = 1) ∨ (tF : ℤ) ≤ rS) := by omega
    simp only [planFrames]
    rw [if_neg hc, if_pos h0, if_pos (by omega : 0 < tF)]
    rcases eq_or_lt_of_le htF with h1 | h2
    · rw [if_pos (by omega : tF = 1)]
      have : ((tF : ℤ) - 1) = 0 := by omega
      rw [show ([0] : List ℤ).getLast? = some 0 from rfl, if_pos (by rw [this])]
    · rw [if_neg (by omega : ¬ tF = 1)]
      rw [show ([0] : List ℤ).getLast? = some 0 from rfl,
        if_neg (by simp; omega)]
      rfl
  · intro h2 hlt
    have hc : ¬((rS = 1) ∨ (tF : ℤ) ≤ rS) := by omega
    have h0 : (0 : ℤ) ≤ rS := by omega
    have htn : ((rS.toNat : ℕ) : ℤ) = rS := Int.toNat_of_nonneg h0
    have hfd : (tF : ℤ).fdiv rS = ((tF / rS.toNat : ℕ) : ℤ) := by
      conv_lhs => rw [Int.fdiv_eq_tdiv (by positivity) h0, ← htn]
      exact (Int.ofNat_tdiv tF rS.toNat).symm
    have hsle : rS.toNat ≤ tF := by omega
    have hs1 : 1 ≤ tF / rS.toNat := (Nat.one_le_div_iff (by omega)).mpr hsle
    have hmax : max 1 ((tF : ℤ).fdiv rS) = ((tF / rS.toNat : ℕ) : ℤ) := by
      rw [hfd]
      exact max_eq_right (by exact_mod_cast hs1)
    set s : ℕ := tF / rS.toNat with hsdef
    simp only [planFrames]
    rw [if_neg hc, if_neg (by omega : ¬ rS = 0), hmax,
      show ((s : ℤ)).toNat = s from Int.toNat_natCast s,
      sampleIndices_eq_filter s hs1 tF, List.getLast?_map,
      filter_multiples_getLast s hs1 tF htF]
    have hcast : ((tF - 1 : ℕ) : ℤ) = (tF : ℤ) - 1 := by
      rw [Nat.cast_sub htF]
      norm_num
    by_cases hdv : (tF - 1) % s = 0
    · have hdvd : s ∣ tF - 1 := Nat.dvd_of_mod_eq_zero hdv
      have heq : s * ((tF - 1) / s) = tF - 1 := Nat.mul_div_cancel' hdvd
      rw [if_pos (by rw [Option.map_some', heq, hcast]), if_pos hdv, List.append_nil]
    · have hne : s * ((tF - 1) / s) ≠ tF - 1 := by
        intro h
        have hdvd : s ∣ tF - 1 := ⟨(tF - 1) / s, h.symm⟩
        exact hdv (Nat.mod_eq_zero_of_dvd hdvd)
      have hcond :
          ¬(Option.map (fun i : ℕ => (i : ℤ)) (some (s * ((tF - 1) / s))) =
            some ((tF : ℤ) - 1)) := by
        rw [Option.map_some']
        intro h
        have h3 := Option.some.inj h
        rw [← hcast] at h3
        exact hne (by exact_mod_cast h3)
      rw [if_neg hcond, if_neg hdv]

/-- C3 counterexample. — As written, the claim asserts that any
`renderSteps ≤ 1` plans every index `0..totalFrames-1`; but for
`renderSteps = 0` the code's step becomes infinite (JS division by zero), so
`planFrames 3 0 = [0, 2]`, not `[0, 1, 2]`. -/
theorem planFrames_zero_step_counterexample :
    planFrames 3 0 = [0, 2] ∧ planFrames 3 0 ≠ [0, 1, 2] := by decide

/-- C3 witness —: the sampled branch at `totalFrames = 4`,
`renderSteps = 2`. -/
theorem planFrames_characterization_witness :
    planFrames 4 2 =
      List.map (fun i : ℕ => (i : ℤ))
          ((List.range 4).filter (fun i => i % (4 / (2 : ℤ).toNat) == 0)) ++
        (if (4 - 1) % (4 / (2 : ℤ).toNat) = 0 then [] else [(4 : ℤ) - 1]) :=
  (planFrames_characterization.1 4 2 (by norm_num)).2.2 (by norm_num) (by norm_num)

/-! ## C1 — capture restores all renderer/camera/scene state -/

/-- C1 — (confirmed).  After any `renderFrame` call — whether it returns a
raster or fails on the missing-2D-context path — the renderer's size, pixel
density, clear color and clear alpha, the scene background, and the camera's
position, rotation, zoom, and type-specific projection parameters all equal
their pre-call values. -/
theorem renderFrame_restores_state (width height : ℕ) (ctx2dOk : Bool) (st : CaptureState) :
    ((renderFrame width height ctx2dOk st).2).renderer = st.renderer ∧
    ((renderFrame width height ctx2dOk st).2).camera = st.camera ∧
    ((renderFrame width height ctx2dOk st).2).scene = st.scene := by
  obtain ⟨⟨rw0, rh0, pd0, cc0, ca0⟩, ⟨pos0, rot0, z0, proj0⟩, ⟨bg0⟩, comp0⟩ := st
  cases proj0 <;> exact ⟨rfl, rfl, rfl⟩

/-! ## Support lemmas for the source-rectangle crop -/

lemma jsRound_nonneg {q : ℚ} (h : 0 ≤ q) : 0 ≤ jsRound q := by
  unfold jsRound
  exact Int.le_floor.mpr (by push_cast; linarith)

lemma jsRound_le_of_lt_natCast {q : ℚ} {n : ℕ} (h : q < n) : jsRound q ≤ n := by
  unfold jsRound
  have hlt : ⌊q + 1/2⌋ < (n : ℤ) + 1 := Int.floor_lt.mpr (by push_cast; linarith)
  omega

lemma two_mul_jsRound_half (k : ℤ) :
    2 * jsRound ((k : ℚ) / 2) = k ∨ 2 * jsRound ((k : ℚ) / 2) = k + 1 := by
  unfold jsRound
  rcases Int.even_or_odd k with ⟨m, rfl⟩ | ⟨m, rfl⟩
  · left
    have h1 : ((m + m : ℤ) : ℚ) / 2 + 1/2 = (m : ℚ) + 1/2 := by push_cast; ring
    rw [h1]
    have h2 : ⌊(m : ℚ) + 1/2⌋ = m + ⌊(1/2 : ℚ)⌋ := Int.floor_int_add m (1/2)
    have h3 : ⌊(1/2 : ℚ)⌋ = 0 := by norm_num
    omega
  · right
    have h1 : ((2 * m + 1 : ℤ) : ℚ) / 2 + 1/2 = ((m + 1 : ℤ) : ℚ) := by push_cast; ring
    rw [h1, Int.floor_intCast]
    ring

/-! ## C2 — exact output resolution with aspect-preserving center crop -/

/-- C2 — (confirmed).  Every raster `renderFrame` returns has exactly the
requested dimensions, and for every source render-surface size the source
rectangle is the full surface when the aspects differ by at most `0.01`,
and otherwise is center-cropped along the oversized axis: full extent along
the other axis, cropped extent `Math.round` of the aspect-matching size and
within the surface, and margins balanced to within one pixel. -/
theorem renderFrame_output_dimensions_and_crop :
    (∀ (width height : ℕ) (ctx2dOk : Bool) (st : CaptureState) (r : Raster),
        (renderFrame width height ctx2dOk st).1 = .ok r →
        r.width = width ∧ r.height = height) ∧
    (∀ srcW srcH tgtW tgtH : ℕ, 0 < srcW → 0 < srcH → 0 < tgtW → 0 < tgtH →
      ((|(srcW : ℚ) / (srcH : ℚ) - (tgtW : ℚ) / (tgtH : ℚ)| ≤ 1/100 →
          computeSourceRect srcW srcH tgtW tgtH = ⟨0, 0, srcW, srcH⟩) ∧
       (1/100 < |(srcW : ℚ) / (srcH : ℚ) - (tgtW : ℚ) / (tgtH : ℚ)| →
          (tgtW : ℚ) / (tgtH : ℚ) < (srcW : ℚ) / (srcH : ℚ) →
          (computeSourceRect srcW srcH tgtW tgtH).y = 0 ∧
          (computeSourceRect srcW srcH tgtW tgtH).h = srcH ∧
          (computeSourceRect srcW srcH tgtW tgtH).w =
            jsRound ((srcH : ℚ) * ((tgtW : ℚ) / (tgtH : ℚ))) ∧
          0 ≤ (computeSourceRect srcW srcH tgtW tgtH).w ∧
          (computeSourceRect srcW srcH tgtW tgtH).w ≤ srcW ∧
          0 ≤ 2 * (computeSourceRect srcW srcH tgtW tgtH).x -
              (srcW - (computeSourceRect srcW srcH tgtW tgtH).w) ∧
          2 * (computeSourceRect srcW srcH tgtW tgtH).x -
              (srcW - (computeSourceRect srcW srcH tgtW tgtH).w) ≤ 1) ∧
       (1/100 < |(srcW : ℚ) / (srcH : ℚ) - (tgtW : ℚ) / (tgtH : ℚ)| →
          (srcW : ℚ) / (srcH : ℚ) < (tgtW : ℚ) / (tgtH : ℚ) →
          (computeSourceRect srcW srcH tgtW tgtH).x = 0 ∧
          (computeSourceRect srcW srcH tgtW tgtH).w = srcW ∧
          (computeSourceRect srcW srcH tgtW tgtH).h =
            jsRound ((srcW : ℚ) / ((tgtW : ℚ) / (tgtH : ℚ))) ∧
          0 ≤ (computeSourceRect srcW srcH tgtW tgtH).h ∧
          (computeSourceRect srcW srcH tgtW tgtH).h ≤ srcH ∧
          0 ≤ 2 * (computeSourceRect srcW srcH tgtW tgtH).y -
              (srcH - (computeSourceRect srcW srcH tgtW tgtH).h) ∧
          2 * (computeSourceRect srcW srcH tgtW tgtH).y -
              (srcH - (computeSourceRect srcW srcH tgtW tgtH).h) ≤ 1))) := by
  constructor
  · intro width height ctx2dOk st r hr
    cases ctx2dOk with
    | false => exact absurd hr (by simp [renderFrame])
    | true =>
        have hr2 : (Except.ok (⟨width, height,
            computeSourceRect width height width height⟩ : Raster) :
            Except String Raster) = .ok r := hr
        cases hr2
        exact ⟨rfl, rfl⟩
  · intro srcW srcH tgtW tgtH hW hH htW htH
    have hsW : (0 : ℚ) < (srcW : ℚ) := by exact_mod_cast hW
    have hsH : (0 : ℚ) < (srcH : ℚ) := by exact_mod_cast hH
    have htgW : (0 : ℚ) < (tgtW : ℚ) := by exact_mod_cast htW
    have htgH : (0 : ℚ) < (tgtH : ℚ) := by exact_mod_cast htH
    have htA : (0 : ℚ) < (tgtW : ℚ) / (tgtH : ℚ) := by positivity
    refine ⟨?_, ?_, ?_⟩
    · intro hle
      unfold computeSourceRect
      rw [if_neg (not_lt.mpr hle)]
    · intro hgt hlt
      unfold computeSourceRect
      rw [if_pos hgt, if_pos hlt]
      have hq : (srcH : ℚ) * ((tgtW : ℚ) / (tgtH : ℚ)) < srcW := by
        have := (lt_div_iff hsH).mp hlt
        linarith [this]
      have hnn : (0 : ℚ) ≤ (srcH : ℚ) * ((tgtW : ℚ) / (tgtH : ℚ)) := by positivity
      refine ⟨rfl, rfl, rfl, jsRound_nonneg hnn, jsRound_le_of_lt_natCast hq, ?_, ?_⟩
      all_goals {
        dsimp only
        have hcast : ((srcW : ℚ) - ((jsRound ((srcH : ℚ) * ((tgtW : ℚ) / (tgtH : ℚ)))) : ℚ)) / 2 =
            (((srcW : ℤ) - jsRound ((srcH : ℚ) * ((tgtW : ℚ) / (tgtH : ℚ))) : ℤ) : ℚ) / 2 := by
          push_cast
          ring
        rw [hcast]
        rcases two_mul_jsRound_half ((srcW : ℤ) -
          jsRound ((srcH : ℚ) * ((tgtW : ℚ) / (tgtH : ℚ)))) with h | h <;> omega
      }
    · intro hgt hlt
      unfold computeSourceRect
      rw [if_pos hgt, if_neg (not_lt.mpr (le_of_lt hlt))]
      have hq : (srcW : ℚ) / ((tgtW : ℚ) / (tgtH : ℚ)) < srcH := by
        rw [div_lt_iff htA]
        have := (div_lt_iff hsH).mp hlt
        linarith [this]
      have hnn : (0 : ℚ) ≤ (srcW : ℚ) / ((tgtW : ℚ) / (tgtH : ℚ)) := by positivity
      refine ⟨rfl, rfl, rfl, jsRound_nonneg hnn, jsRound_le_of_lt_natCast hq, ?_, ?_⟩
      all_goals {
        dsimp only
        have hcast : ((srcH : ℚ) - ((jsRound ((srcW : ℚ) / ((tgtW : ℚ) / (tgtH : ℚ)))) : ℚ)) / 2 =
            (((srcH : ℤ) - jsRound ((srcW : ℚ) / ((tgtW : ℚ) / (tgtH : ℚ))) : ℤ) : ℚ) / 2 := by
          push_cast
          ring
        rw [hcast]
        rcases two_mul_jsRound_half ((srcH : ℤ) -
          jsRound ((srcW : ℚ) / ((tgtW : ℚ) / (tgtH : ℚ)))) with h | h <;> omega
      }

/-- C2 witness —: a successful capture at the requested 64×64 on an
800×600 surface, and the center crop at a 200×100 surface copied into a
100×100 request. -/
theorem renderFrame_output_dimensions_and_crop_witness :
    (∀ r : Raster, (renderFrame 64 64 true sampleCaptureState).1 = .ok r →
      r.width = 64 ∧ r.height = 64) ∧
    (computeSourceRect 200 100 100 100).h = 100 ∧
    0 ≤ 2 * (computeSourceRect 200 100 100 100).x -
        (200 - (computeSourceRect 200 100 100 100).w) := by
  have h := (renderFrame_output_dimensions_and_crop.2 200 100 100 100
    (by norm_num) (by norm_num) (by norm_num) (by norm_num)).2.1
    (by norm_num) (by norm_num)
  exact ⟨fun r hr => renderFrame_output_dimensions_and_crop.1 64 64 true sampleCaptureState r hr,
    h.2.1, h.2.2.2.2.2.1⟩

/-! ## C4 — multi-angle batch behaviour on per-angle failure -/

lemma exportSequence_resolves (b : Bridge) (outputFolder currentAnimation : Option String)
    (renderSteps : ℤ) (totalFrames : ℕ) :
    ∃ out, exportSequence b outputFolder currentAnimation renderSteps totalFrames =
      .resolved out := by
  unfold exportSequence
  repeat' (first | split | dsimp only)
  all_goals exact ⟨_, rfl⟩

/-- C4 — (corrected, amended form).  `exportSequence` catches every failure
internally and its promise always resolves, so the batch loop of
`handleExport` never aborts: every angle in the ordered list is attempted,
in order, and each recorded outcome is exactly that angle's (caught)
`exportSequence` outcome — including the written-files list, so artifacts of
completed work are left in place. -/
theorem handleExport_attempts_every_angle (b : Bridge)
    (outputFolder currentAnimation : Option String) (renderSteps : ℤ)
    (totalFrames : ℕ) (angles : List String) :
    (handleExport b outputFolder currentAnimation renderSteps totalFrames angles).map
        Prod.fst = angles ∧
    ∀ p ∈ handleExport b outputFolder currentAnimation renderSteps totalFrames angles,
      exportSequence b outputFolder currentAnimation renderSteps totalFrames =
        .resolved p.2 := by
  obtain ⟨out, hout⟩ :=
    exportSequence_resolves b outputFolder currentAnimation renderSteps totalFrames
  induction angles with
  | nil =>
      refine ⟨rfl, ?_⟩
      intro p hp
      cases hp
  | cons a rest ih =>
      constructor
      · simp only [handleExport]
        rw [hout]
        simp only [List.map_cons, List.cons.injEq]
        exact ⟨trivial, ih.1⟩
      · intro p hp
        simp only [handleExport] at hp
        rw [hout] at hp
        rcases List.mem_cons.mp hp with rfl | hmem
        · exact hout
        · exact ih.2 p hmem

/-- C4 counterexample. —  With a bridge on which every file write fails,
the export of the first angle `"face"` fails (its outcome records
`ok = false` with the failing file), yet the batch still attempts the
second angle `"dos"` — the remaining batch is *not* aborted, because
`exportSequence` swallows its own errors (`useExport.tsx` lines 767–775)
and `handleExport`'s `catch` never fires. -/
theorem multiAngle_batch_counterexample :
    (handleExport exportBridgeFail (some "out") (some "walk") 1 1 ["face", "dos"]).map
        Prod.fst = ["face", "dos"] ∧
    (handleExport exportBridgeFail (some "out") (some "walk") 1 1
        ["face", "dos"]).head?.map (fun p => p.2.ok) = some false := by
  decide

/-- C4 witness —: the amended theorem applied to the two-angle failing
run. -/
theorem handleExport_attempts_every_angle_witness :
    (handleExport exportBridgeFail (some "out") (some "walk") 1 1 ["face", "dos"]).map
        Prod.fst = ["face", "dos"] ∧
    exportSequence exportBridgeFail (some "out") (some "walk") 1 1 =
      .resolved ⟨false,
        some "Failed to export sequence: Failed to save file: out/walk/frame_0000.png", []⟩ := by
  have h := handleExport_attempts_every_angle exportBridgeFail (some "out") (some "walk")
    1 1 ["face", "dos"]
  refine ⟨h.1, ?_⟩
  exact h.2 ("face", ⟨false,
    some "Failed to export sequence: Failed to save file: out/walk/frame_0000.png", []⟩)
    (by decide)

/-! ## C5 — applyCalibration failure behaviour -/

/-- C5 — (corrected, amended form).  When applying a calibration fails
because the scene or its `importedModel` container cannot be located,
`applyCalibration` returns `false` without throwing, and the in-memory
calibration state is left **unchanged** — `setCalibration` is only reached
on success. -/
theorem applyCalibration_failure_keeps_state (scene : Option CalScene)
    (state : Option SafeModelCalibration) (cal : SafeModelCalibration)
    (h : scene = none ∨ ∃ sc, scene = some sc ∧ sc.importedModel = none) :
    (applyCalibration scene state cal).1 = false ∧
    (applyCalibration scene state cal).2.1 = state := by
  rcases h with rfl | ⟨sc, rfl, hsc⟩
  · exact ⟨rfl, rfl⟩
  · cases sc with
    | mk im =>
        cases hsc
        exact ⟨rfl, rfl⟩

/-- C5 counterexample. —  With a scene whose container lookup fails and no
calibration yet stored, applying `demoCalibration` returns `false` but the
state does *not* become the applied calibration (the claim said it still
updates). -/
theorem applyCalibration_state_counterexample :
    (applyCalibration (some ⟨none⟩) none demoCalibration).1 = false ∧
    (applyCalibration (some ⟨none⟩) none demoCalibration).2.1 ≠ some demoCalibration := by
  refine ⟨rfl, ?_⟩
  intro h
  exact Option.noConfusion h

/-- C5 witness —: the amended theorem at a concrete missing-container
scene. -/
theorem applyCalibration_failure_keeps_state_witness :
    (applyCalibration (some ⟨none⟩) (some demoCalibration) demoCalibration).1 = false ∧
    (applyCalibration (some ⟨none⟩) (some demoCalibration) demoCalibration).2.1 =
      some demoCalibration :=
  applyCalibration_failure_keeps_state (some ⟨none⟩) (some demoCalibration) demoCalibration
    (Or.inr ⟨⟨none⟩, rfl, rfl⟩)

/-! ## C8 — the animation frame mapper -/

/-- C8 — (confirmed).  On an animation change `totalFrames` becomes
`⌊duration × 30⌋` and `currentFrame` resets to 0 (duration 2.0 s gives 60);
with `totalFrames > 0`, `previousFrame` at `currentFrame = 0` wraps to
`totalFrames - 1` (59 in the scenario). -/
theorem animation_frame_mapper_spec :
    (∀ d : ℚ, (selectAnimation d).currentFrame = 0 ∧
      (selectAnimation d).totalFrames = ⌊d * 30⌋) ∧
    (selectAnimation 2).totalFrames = 60 ∧
    (∀ st : AnimState, 0 < st.totalFrames → st.currentFrame = 0 →
      (previousFrame st).currentFrame = st.totalFrames - 1) ∧
    (previousFrame (selectAnimation 2)).currentFrame = 59 := by
  refine ⟨fun d => ⟨rfl, rfl⟩, ?_, ?_, ?_⟩
  · show totalFramesFor 2 = 60
    unfold totalFramesFor
    norm_num
  · intro st h1 h2
    unfold previousFrame
    simp [h2]
  · show (previousFrame ⟨0, totalFramesFor 2⟩).currentFrame = 59
    unfold previousFrame totalFramesFor
    norm_num

/-- C8 witness —: the wrap at a concrete frame state with 60 frames. -/
theorem animation_frame_mapper_spec_witness :
    (previousFrame ⟨0, 60⟩).currentFrame = 60 - 1 :=
  animation_frame_mapper_spec.2.2.1 ⟨0, 60⟩ (by norm_num) rfl

/-! ## C10 — analyzeModel on degenerate bounding boxes -/

/-- C10 — (confirmed).  For every model with a scene root, `analyzeModel`
returns a calibration whose `normalizedScale` lies in `[0.5, 20]`; when the
bounding-box height is not positive the pre-clamp scale falls back to 1 (so
the returned scale is exactly 1) — no division by zero occurs. -/
theorem analyzeModel_degenerate_safe (sc : GLTFScene) :
    ∃ cal, analyzeModel (some ⟨some sc⟩) = some cal ∧
      1/2 ≤ cal.normalizedScale ∧ cal.normalizedScale ≤ 20 ∧
      (sc.boundingBox.max.y - sc.boundingBox.min.y ≤ 0 → cal.normalizedScale = 1) := by
  refine ⟨_, rfl, ?_, ?_, ?_⟩
  · exact le_max_right _ _
  · exact max_le (le_trans (min_le_right _ _) (by norm_num)) (by norm_num)
  · intro hy
    dsimp only
    rw [if_neg (not_lt.mpr hy)]
    norm_num

/-- C10 witness —: a zero-size bounding box yields scale exactly 1. -/
theorem analyzeModel_degenerate_safe_witness :
    ∃ cal, analyzeModel (some ⟨some ⟨⟨⟨0, 0, 0⟩, ⟨0, 0, 0⟩⟩⟩⟩) = some cal ∧
      cal.normalizedScale = 1 := by
  obtain ⟨cal, h1, _, _, h4⟩ := analyzeModel_degenerate_safe ⟨⟨⟨0, 0, 0⟩, ⟨0, 0, 0⟩⟩⟩
  exact ⟨cal, h1, h4 (by norm_num)⟩

/-! ## C9 — toggleFrame invariants -/

lemma toggleFrame_cons_zero (f : Frame) (rest : List Frame) :
    toggleFrame (f :: rest) 0 = { f with enabled := !f.enabled } :: rest := by
  unfold toggleFrame
  simp

lemma toggleFrame_cons_succ (f : Frame) (rest : List Frame) (i : ℕ) :
    toggleFrame (f :: rest) (i + 1) = f :: toggleFrame rest i := by
  unfold toggleFrame
  cases h : rest[i]? with
  | none => simp [h]
  | some g => simp [h]

lemma toggleFrame_length (frames : List Frame) (i : ℕ) :
    (toggleFrame frames i).length = frames.length := by
  unfold toggleFrame
  cases h : frames[i]? with
  | none => rfl
  | some f => simp

lemma toggleFrame_getElem? (frames : List Frame) (i j : ℕ) :
    (toggleFrame frames i)[j]? =
      if j = i then (frames[j]?).map (fun f => { f with enabled := !f.enabled })
      else frames[j]? := by
  unfold toggleFrame
  cases hi : frames[i]? with
  | none =>
      by_cases hji : j = i
      · subst hji
        simp [hi]
      · simp [hji]
  | some f =>
      by_cases hji : j = i
      · subst hji
        have hlt : j < frames.length := (List.getElem?_eq_some_iff.mp hi).1
        simp [List.getElem?_set_self, hi, hlt]
      · simp [List.getElem?_set_ne (fun h => hji h.symm), hji]

lemma active_toggle (frames : List Frame) (i : ℕ) (f : Frame) (hf : frames[i]? = some f) :
    (getActiveFrames (toggleFrame frames i)).length + (if f.enabled then 1 else 0) =
      (getActiveFrames frames).length + (if f.enabled then 0 else 1) := by
  induction frames generalizing i with
  | nil => simp at hf
  | cons a rest ih =>
      cases i with
      | zero =>
          rw [List.getElem?_cons_zero] at hf
          cases hf
          rw [toggleFrame_cons_zero]
          unfold getActiveFrames
          cases he : f.enabled <;> simp [List.filter_cons, he]
      | succ i2 =>
          rw [List.getElem?_cons_succ] at hf
          rw [toggleFrame_cons_succ]
          have hih := ih i2 hf
          unfold getActiveFrames at hih ⊢
          by_cases ha : a.enabled <;> simp [List.filter_cons, ha] <;> omega

/-- C9 — (confirmed).  For every valid index, toggling a frame keeps the
list length and every frame's identity, filename, data, dimensions and
position; the active-subset length decreases by exactly 1 when the toggled
frame was enabled and increases by exactly 1 when it was disabled. -/
theorem toggleFrame_invariants (frames : List Frame) (i : ℕ) (f : Frame)
    (hf : frames[i]? = some f) :
    (toggleFrame frames i).length = frames.length ∧
    (∀ j : ℕ,
      ((toggleFrame frames i)[j]?).map Frame.id = (frames[j]?).map Frame.id ∧
      ((toggleFrame frames i)[j]?).map Frame.filename = (frames[j]?).map Frame.filename ∧
      ((toggleFrame frames i)[j]?).map Frame.data = (frames[j]?).map Frame.data ∧
      ((toggleFrame frames i)[j]?).map Frame.width = (frames[j]?).map Frame.width ∧
      ((toggleFrame frames i)[j]?).map Frame.height = (frames[j]?).map Frame.height) ∧
    (f.enabled = true →
      (getActiveFrames (toggleFrame frames i)).length + 1 =
        (getActiveFrames frames).length) ∧
    (f.enabled = false →
      (getActiveFrames (toggleFrame frames i)).length =
        (getActiveFrames frames).length + 1) := by
  refine ⟨toggleFrame_length frames i, ?_, ?_, ?_⟩
  · intro j
    rw [toggleFrame_getElem?]
    by_cases hji : j = i
    · rw [if_pos hji]
      cases hj : frames[j]? <;> simp
    · rw [if_neg hji]
      exact ⟨rfl, rfl, rfl, rfl, rfl⟩
  · intro he
    have h := active_toggle frames i f hf
    rw [he] at h
    simpa using h
  · intro he
    have h := active_toggle frames i f hf
    rw [he] at h
    simpa using h

/-- C9 witness —: toggling the only (enabled) frame of a singleton list. -/
theorem toggleFrame_invariants_witness :
    (toggleFrame [demoFrame] 0).length = 1 ∧
    (getActiveFrames (toggleFrame [demoFrame] 0)).length + 1 =
      (getActiveFrames [demoFrame]).length := by
  have h := toggleFrame_invariants [demoFrame] 0 demoFrame (by decide)
  exact ⟨h.1, h.2.2.1 (by decide)⟩

/-! ## C6 — sprite-sheet grid layouts -/

lemma leastSqrtFrom_le_sq (n : ℕ) :
    ∀ (fuel c : ℕ), n ≤ (c + fuel) * (c + fuel) →
      n ≤ leastSqrtFrom n c fuel * leastSqrtFrom n c fuel := by
  intro fuel
  induction fuel with
  | zero =>
      intro c h
      simpa [leastSqrtFrom] using h
  | succ fuel ih =>
      intro c h
      unfold leastSqrtFrom
      split
      · assumption
      · exact ih (c + 1) (by convert h using 2 <;> omega)

lemma leastSqrtFrom_min (n : ℕ) :
    ∀ (fuel c : ℕ), (∀ b, b < c → b * b < n) →
      ∀ b, b < leastSqrtFrom n c fuel → b * b < n := by
  intro fuel
  induction fuel with
  | zero =>
      intro c hc b hb
      exact hc b (by simpa [leastSqrtFrom] using hb)
  | succ fuel ih =>
      intro c hc b hb
      unfold leastSqrtFrom at hb
      by_cases hn : n ≤ c * c
      · rw [if_pos hn] at hb
        exact hc b hb
      · rw [if_neg hn] at hb
        refine ih (c + 1) ?_ b hb
        intro b2 hb2
        rcases Nat.lt_succ_iff_lt_or_eq.mp hb2 with h | rfl
        · exact hc b2 h
        · omega

lemma ceilSqrt_le_sq (n : ℕ) : n ≤ ceilSqrt n * ceilSqrt n := by
  unfold ceilSqrt
  apply leastSqrtFrom_le_sq
  rcases Nat.eq_zero_or_pos n with rfl | hn
  · simp
  · calc n = 1 * n := (Nat.one_mul n).symm
      _ ≤ (0 + n) * (0 + n) := by
          simp only [Nat.zero_add]
          exact Nat.mul_le_mul_right n hn

lemma ceilSqrt_min (n : ℕ) : ∀ b, b < ceilSqrt n → b * b < n := by
  unfold ceilSqrt
  exact leastSqrtFrom_min n n 0 (fun b hb => absurd hb (Nat.not_lt_zero b))

lemma ceilSqrt_pos (n : ℕ) (hn : 1 ≤ n) : 1 ≤ ceilSqrt n := by
  by_contra h
  have h0 : ceilSqrt n = 0 := by omega
  have := ceilSqrt_le_sq n
  rw [h0] at this
  omega

lemma ceilDiv_bounds (n c : ℕ) (hc : 1 ≤ c) (hn : 1 ≤ n) :
    n ≤ c * ceilDiv n c ∧ c * (ceilDiv n c - 1) < n := by
  unfold ceilDiv
  have h1 := Nat.div_add_mod (n + c - 1) c
  have h2 : (n + c - 1) % c < c := Nat.mod_lt _ (by omega)
  have h3 : c * (((n + c - 1) / c) - 1) = c * ((n + c - 1) / c) - c := by
    rw [← Nat.pred_eq_sub_one, Nat.mul_pred]
  omega

/-- C6 — (corrected, amended form).  The export orchestrator's sheet uses
`columns = ceil(sqrt(n))`, `rows = ceil(n/columns)`, dimensions
`(frameW*columns, frameH*rows)` and places frame `i` at cell
`(i mod columns, i div columns)`, with `columns*rows ≥ n > columns*(rows-1)`;
the frame editor's sheet, however, is a single-row strip: `n` columns, one
row, dimensions `(firstFrame.width * n, firstFrame.height)`, frame `i` at
`(i*firstFrame.width, 0)`. -/
theorem spriteSheet_grid_spec :
    (∀ n frameW frameH : ℕ, 1 ≤ n →
      (exportSpriteSheetLayout n frameW frameH).columns = ceilSqrt n ∧
      (exportSpriteSheetLayout n frameW frameH).rows = ceilDiv n (ceilSqrt n) ∧
      (exportSpriteSheetLayout n frameW frameH).sheetW = frameW * ceilSqrt n ∧
      (exportSpriteSheetLayout n frameW frameH).sheetH =
        frameH * ceilDiv n (ceilSqrt n) ∧
      n ≤ (exportSpriteSheetLayout n frameW frameH).columns *
          (exportSpriteSheetLayout n frameW frameH).rows ∧
      (exportSpriteSheetLayout n frameW frameH).columns *
          ((exportSpriteSheetLayout n frameW frameH).rows - 1) < n ∧
      (∀ i, i < n → (exportSpriteSheetLayout n frameW frameH).positions[i]? =
        some ((i % ceilSqrt n) * frameW, (i / ceilSqrt n) * frameH))) ∧
    (∀ (f : Frame) (rest : List Frame),
      exportAsSpriteSheetLayout (f :: rest) =
        some { columns := (f :: rest).length, rows := 1,
               sheetW := f.width * (f :: rest).length, sheetH := f.height,
               positions := (List.range (f :: rest).length).map
                 (fun i => (i * f.width, 0)) }) := by
  constructor
  · intro n frameW frameH hn
    have hb := ceilDiv_bounds n (ceilSqrt n) (ceilSqrt_pos n hn) hn
    refine ⟨rfl, rfl, rfl, rfl, hb.1, hb.2, ?_⟩
    intro i hi
    unfold exportSpriteSheetLayout
    simp [List.getElem?_map, List.getElem?_range, hi]
  · intro f rest
    rfl

/-- C6 counterexample. —  For the frame editor's sheet with 4 equal
8×8 frames, the layout has 4 columns and 1 row — not the claimed
`ceil(sqrt(4)) = 2` columns and `ceil(4/2) = 2` rows (its width is 32, not
16). -/
theorem spriteSheet_editor_strip_counterexample :
    (exportAsSpriteSheetLayout (List.replicate 4 demoFrame)).map SheetLayout.columns =
        some 4 ∧
    ceilSqrt (List.replicate 4 demoFrame).length = 2 ∧
    (exportAsSpriteSheetLayout (List.replicate 4 demoFrame)).map SheetLayout.rows =
        some 1 ∧
    ceilDiv (List.replicate 4 demoFrame).length 2 = 2 ∧
    (exportAsSpriteSheetLayout (List.replicate 4 demoFrame)).map SheetLayout.sheetW =
        some 32 := by
  decide

/-- C6 witness —: the orchestrator grid at 10 frames of 8×8 (4 columns,
3 rows) and the editor strip on a singleton list. -/
theorem spriteSheet_grid_spec_witness :
    10 ≤ (exportSpriteSheetLayout 10 8 8).columns * (exportSpriteSheetLayout 10 8 8).rows ∧
    (exportSpriteSheetLayout 10 8 8).columns *
        ((exportSpriteSheetLayout 10 8 8).rows - 1) < 10 ∧
    (exportSpriteSheetLayout 10 8 8).positions[5]? = some ((5 % ceilSqrt 10) * 8, (5 / ceilSqrt 10) * 8) ∧
    exportAsSpriteSheetLayout [demoFrame] =
      some { columns := 1, rows := 1, sheetW := demoFrame.width * 1,
             sheetH := demoFrame.height,
             positions := (List.range 1).map (fun i => (i * demoFrame.width, 0)) } := by
  have h := spriteSheet_grid_spec.1 10 8 8 (by norm_num)
  refine ⟨h.2.2.2.2.1, h.2.2.2.2.2.1, h.2.2.2.2.2.2 5 (by norm_num), ?_⟩
  have h2 := spriteSheet_grid_spec.2 demoFrame []
  simpa using h2

/-! ## C7 — ingestion ordering -/

lemma insertByNumber_perm (a : String) (l : List String) :
    (insertByNumber a l).Perm (a :: l) := by
  induction l with
  | nil => exact List.Perm.refl _
  | cons b bs ih =>
      unfold insertByNumber
      split
      · exact List.Perm.refl _
      · exact (List.Perm.cons b ih).trans (List.Perm.swap a b bs)

lemma insertByNumber_pairwise (a : String) (l : List String)
    (h : l.Pairwise (fun x y => firstNumber x ≤ firstNumber y)) :
    (insertByNumber a l).Pairwise (fun x y => firstNumber x ≤ firstNumber y) := by
  induction l with
  | nil => simp [insertByNumber]
  | cons b bs ih =>
      rw [List.pairwise_cons] at h
      unfold insertByNumber
      split
      · rename_i hab
        rw [List.pairwise_cons]
        constructor
        · intro x hx
          rcases List.mem_cons.mp hx with rfl | hmem
          · exact hab
          · exact le_trans hab (h.1 x hmem)
        · rw [List.pairwise_cons]
          exact h
      · rename_i hab
        rw [List.pairwise_cons]
        constructor
        · intro x hx
          have hx2 := (insertByNumber_perm a bs).mem_iff.mp hx
          rcases List.mem_cons.mp hx2 with rfl | hmem
          · omega
          · exact h.1 x hmem
        · exact ih h.2

lemma insertByNumber_filter_key (a : String) (l : List String) (k : ℕ) :
    (insertByNumber a l).filter (fun s => firstNumber s == k) =
      if firstNumber a == k then a :: l.filter (fun s => firstNumber s == k)
      else l.filter (fun s => firstNumber s == k) := by
  induction l with
  | nil =>
      show List.filter _ [a] = _
      rw [List.filter_cons]
  | cons b bs ih =>
      unfold insertByNumber
      split
      · rename_i hab
        rw [List.filter_cons]
      · rename_i hab
        rw [List.filter_cons, ih, List.filter_cons]
        by_cases hak : firstNumber a = k
        · have hbk : (firstNumber b == k) = false := by
            simp only [beq_eq_false_iff_ne, ne_eq]
            omega
          simp [hak, hbk]
        · have hak2 : (firstNumber a == k) = false := by
            simp only [beq_eq_false_iff_ne, ne_eq]
            exact hak
          simp [hak2]

lemma sortByFirstNumber_perm (l : List String) : (sortByFirstNumber l).Perm l := by
  induction l with
  | nil => exact List.Perm.refl _
  | cons a rest ih =>
      unfold sortByFirstNumber
      exact (insertByNumber_perm a (sortByFirstNumber rest)).trans (List.Perm.cons a ih)

lemma sortByFirstNumber_pairwise (l : List String) :
    (sortByFirstNumber l).Pairwise (fun x y => firstNumber x ≤ firstNumber y) := by
  induction l with
  | nil => simp [sortByFirstNumber]
  | cons a rest ih => exact insertByNumber_pairwise a _ ih

lemma sortByFirstNumber_stable (l : List String) (k : ℕ) :
    (sortByFirstNumber l).filter (fun s => firstNumber s == k) =
      l.filter (fun s => firstNumber s == k) := by
  induction l with
  | nil => rfl
  | cons a rest ih =>
      unfold sortByFirstNumber
      rw [insertByNumber_filter_key, List.filter_cons, ih]

/-- C7 — (confirmed).  Frame ingestion orders the `.png`-filtered listing
by the first embedded integer of each filename: the result is a permutation
of the filtered listing, pairwise sorted by `firstNumber`, and within each
key the original listing order is kept (the stable-sort characterization);
in particular `["f2.png","f10.png","f1.png"]` orders as `f1, f2, f10`. -/
theorem importOrder_sorted_stable :
    (∀ files : List String,
      (importFramesOrder files).Perm (files.filter isPngFile) ∧
      (importFramesOrder files).Pairwise (fun a b => firstNumber a ≤ firstNumber b) ∧
      (∀ k : ℕ, (importFramesOrder files).filter (fun s => firstNumber s == k) =
        (files.filter isPngFile).filter (fun s => firstNumber s == k))) ∧
    importFramesOrder ["f2.png", "f10.png", "f1.png"] =
      ["f1.png", "f2.png", "f10.png"] := by
  refine ⟨?_, by decide⟩
  intro files
  exact ⟨sortByFirstNumber_perm _, sortByFirstNumber_pairwise _,
    fun k => sortByFirstNumber_stable _ k⟩

end SpriteSheet
